import Mathlib

/-!
Shallow embedding of the decision logic of `streamlit_app.py` (Certificate of
Origin extractor): the value normalizer `clean_extracted_value`, the company
name similarity heuristic `are_names_similar`, the line-oriented reply parsing
loop and producer/consignee reconciliation inside
`extract_electronic_copy_info`, and the row construction of
`create_excel_download`.

Strings are modelled as Lean `String` / `List Char`.  Python character classes
are modelled over their ASCII behaviour: `\s` (and `str.strip`) as the six
ASCII whitespace characters, `\w` as alphanumeric-or-underscore, `str.lower`
as `Char.toLower`.  Python `dict`s (insertion ordered, unique keys) are
modelled as association lists with in-place update on insert.
-/

namespace CertExtract

/-- Python regex `\s` / `str.strip` whitespace, restricted to ASCII. -/
def isPySpace (c : Char) : Bool :=
  c = ' ' || c = '\t' || c = '\n' || c = '\r' || c = '\x0b' || c = '\x0c'

/-- Python regex `\w`: alphanumeric or underscore (ASCII). -/
def isWordChar (c : Char) : Bool :=
  c.isAlphanum || c = '_'

/-- Python `str.strip()`: drop leading and trailing whitespace. -/
def pyStrip (s : List Char) : List Char :=
  ((s.dropWhile isPySpace).reverse.dropWhile isPySpace).reverse

/-- Python `str.lower()` (ASCII). -/
def pyLower (s : List Char) : List Char :=
  s.map Char.toLower

/-- `re.sub(r'\s+', ' ', s)`: auxiliary scan; the flag records whether the
previous character was part of a whitespace run already replaced. -/
def collapseWsAux : Bool → List Char → List Char
  | _, [] => []
  | inRun, c :: cs =>
    if isPySpace c then
      if inRun then collapseWsAux true cs
      else ' ' :: collapseWsAux true cs
    else c :: collapseWsAux false cs

/-- `re.sub(r'\s+', ' ', s)`: collapse every whitespace run to one space. -/
def collapseWs (s : List Char) : List Char :=
  collapseWsAux false s

/-- `re.sub(r'^[:\-\s]+', '', s)`: drop leading `:`, `-` and whitespace. -/
def stripLeadJunk (s : List Char) : List Char :=
  s.dropWhile (fun c => c = ':' || c = '-' || isPySpace c)

/-- The tokens recognized as a missing value by `clean_extracted_value`
(source line 20): `['n/a', 'na', 'not found', 'none', '']`. -/
def missing_tokens : List (List Char) :=
  ["n/a".data, "na".data, "not found".data, "none".data, "".data]

/-- `clean_extracted_value` (source lines 18-29): if the value is empty, or its
whitespace-stripped lower-cased form is a recognized missing token, return
`"N/A"`; otherwise collapse whitespace runs in the stripped value and drop any
leading `:`, `-` or whitespace characters. -/
def clean_extracted_value (value : List Char) : List Char :=
  if value = [] ∨ pyLower (pyStrip value) ∈ missing_tokens then
    "N/A".data
  else
    stripLeadJunk (collapseWs (pyStrip value))

/-- `\b` boundary to the right of a match: next char is a non-word char or the
string ends. -/
def wordBdAfter : List Char → Bool
  | [] => true
  | d :: _ => !(isWordChar d)

/-- `re.sub(rf'\b{w}\b', '', s)` for a non-empty word `w0 :: wr`: scan left to
right, deleting every non-overlapping whole-word occurrence.  `atBd` records
whether the previous character of the original string was a non-word char
(or the scan is at the start), i.e. whether `\b` holds before this position.

Recursion is driven by a fuel argument so that the definition is structural
(and kernel-reducible); every step consumes at least one character, so fuel
equal to the string length never runs out. -/
def removeWordAux (w0 : Char) (wr : List Char) : Nat → Bool → List Char → List Char
  | 0, _, s => s
  | _ + 1, _, [] => []
  | n + 1, atBd, c :: cs =>
    if atBd && c = w0 && wr.isPrefixOf cs && wordBdAfter (cs.drop wr.length) then
      removeWordAux w0 wr n false (cs.drop wr.length)
    else
      c :: removeWordAux w0 wr n (!(isWordChar c)) cs

/-- `re.sub(rf'\b{w}\b', '', s)`: delete whole-word occurrences of `w`. -/
def removeWord (w s : List Char) : List Char :=
  match w with
  | [] => s
  | w0 :: wr => removeWordAux w0 wr s.length true s

/-- The legal-entity suffix tokens of `are_names_similar` (source line 41). -/
def suffixes : List (List Char) :=
  ["ltd".data, "limited".data, "inc".data, "incorporated".data, "corp".data,
   "corporation".data, "pvt".data, "private".data, "llc".data, "co".data]

/-- Name normalization inside `are_names_similar` (source lines 37-44):
lower-case, delete characters that are neither word chars nor whitespace,
strip, then delete each suffix token's whole-word occurrences, re-stripping
after each deletion. -/
def cleanName (s : String) : List Char :=
  let base := pyStrip ((pyLower s.data).filter fun c => isWordChar c || isPySpace c)
  suffixes.foldl (fun acc w => pyStrip (removeWord w acc)) base

/-- Python substring test `small in big`. -/
def strIn (small : List Char) : List Char → Bool
  | [] => small.isEmpty
  | b :: bs => small.isPrefixOf (b :: bs) || strIn small bs

/-- The comparison of `are_names_similar` after the input guard (source lines
47-58), on the two cleaned names.  `shorter_len` and `overlap` are inlined;
the float test `overlap / shorter_len >= 0.7` is the exact rational
comparison `7 * shorter_len <= 10 * overlap` (both are small naturals). -/
def similarCore (clean_name1 clean_name2 : List Char) : Bool :=
  if clean_name1 = clean_name2 then true
  else if 0 < min clean_name1.length clean_name2.length then
    if strIn clean_name1 clean_name2 || strIn clean_name2 clean_name1 then
      if 7 * min clean_name1.length clean_name2.length ≤
          10 * (if strIn clean_name1 clean_name2 then
            clean_name1.length else clean_name2.length) then
        true
      else false
    else false
  else false

/-- `are_names_similar` (source lines 31-58). -/
def are_names_similar (name1 name2 : String) : Bool :=
  if name1 = "" ∨ name2 = "" ∨ name1 = "N/A" ∨ name2 = "N/A" then false
  else similarCore (cleanName name1) (cleanName name2)

/-- Following the spec's own normalization words (§4.1): "lower-case, strip
all characters that are not alphanumeric or whitespace, collapse whitespace,
trim", then removal of the suffix tokens as whole words with re-trimming.
Used only to compare the spec's description against `cleanName`, which (as
coded) keeps underscores and never collapses whitespace. -/
def specNormalizeName (s : String) : List Char :=
  let base := pyStrip (collapseWs
    ((pyLower s.data).filter fun c => c.isAlphanum || isPySpace c))
  suffixes.foldl (fun acc w => pyStrip (removeWord w acc)) base

/-! ### Python `dict` model: insertion-ordered association list, unique keys -/

/-- A Python `dict` of strings, as an association list. -/
abbrev Dict := List (String × String)

/-- `d.get(k)` / `d[k]`: value at the first (in a real dict, only)
occurrence of key `k`. -/
def dictGet? (k : String) : Dict → Option String
  | [] => none
  | (k', v) :: d => if k' = k then some v else dictGet? k d

/-- `d.get(k, dflt)`. -/
def dictGetD (k dflt : String) (d : Dict) : String :=
  (dictGet? k d).getD dflt

/-- `d[k] = v`: update the existing entry in place, else append. -/
def dictInsert (k v : String) : Dict → Dict
  | [] => [(k, v)]
  | (k', v') :: d => if k' = k then (k, v) :: d else (k', v') :: dictInsert k v d

/-- `d.pop(k, None)`: remove the entry with key `k`, if present. -/
def dictPop (k : String) : Dict → Dict
  | [] => []
  | (k', v') :: d => if k' = k then d else (k', v') :: dictPop k d

/-! ### Reply parsing (source lines 136-160) -/

/-- `field_mapping` (source lines 136-151). -/
def field_mapping : Dict :=
  [("Exporter's business name", "exporters_business_name"),
   ("Exporter's address", "exporters_address"),
   ("Exporter's country", "exporters_country"),
   ("Producer's business name", "producers_business_name"),
   ("Producer's address", "producers_address"),
   ("Producer's country", "producers_country"),
   ("Consignee's name", "consignees_name"),
   ("Consignee's address", "consignees_address"),
   ("Consignee's country", "consignees_country"),
   ("Marks and numbers on packaging", "marks_numbers_packaging"),
   ("Number and type of packages", "number_type_packages"),
   ("Description of goods", "description_goods"),
   ("Gross weight or other quantity", "gross_weight_quantity"),
   ("Value (FOB)", "value_fob")]

/-- The canonical field keys: the value set of `field_mapping`. -/
def fieldKeys : List String := field_mapping.map Prod.snd

/-- Python `text.split(sep)` for a one-character separator: empty pieces are
kept, `"".split(c) == ['']`. -/
def splitOnChar (sep : Char) : List Char → List (List Char)
  | [] => [[]]
  | c :: cs =>
    if c = sep then [] :: splitOnChar sep cs
    else
      match splitOnChar sep cs with
      | [] => [[c]]
      | l :: ls => (c :: l) :: ls

/-- `line.split(':', 1)` guarded by `':' in line`: `none` when the line has no
colon, else the text before and after the first colon. -/
def splitFirstColon : List Char → Option (List Char × List Char)
  | [] => none
  | c :: cs =>
    if c = ':' then some ([], cs)
    else
      match splitFirstColon cs with
      | none => none
      | some (a, b) => some (c :: a, b)

/-- One iteration of the parsing loop (source lines 154-160): the canonical
key and cleaned value a line contributes, or `none` when the line has no
colon or its stripped label is not in `field_mapping`. -/
def lineKV (line : List Char) : Option (String × String) :=
  match splitFirstColon line with
  | none => none
  | some (rawKey, rawVal) =>
    match dictGet? (String.mk (pyStrip rawKey)) field_mapping with
    | none => none
    | some fk => some (fk, String.mk (clean_extracted_value rawVal))

/-- The parsing loop over a list of lines, threading the dict. -/
def parseLines : List (List Char) → Dict → Dict
  | [], d => d
  | l :: ls, d =>
    parseLines ls (match lineKV l with
      | none => d
      | some (k, v) => dictInsert k v d)

/-- `parse` (source lines 153-160): split the reply on newlines and run the
parsing loop starting from the empty dict. -/
def parse (extracted_text : String) : Dict :=
  parseLines (splitOnChar '\n' extracted_text.data) []

/-! ### Producer/consignee reconciliation (source lines 162-179) -/

/-- `reconcile` (source lines 162-179): when a producer name is present and
not similar to the exporter name, the producer triple overwrites the
consignee triple; the three producer keys are always popped. -/
def reconcile (extracted_data : Dict) : Dict :=
  let exporter_name := dictGetD "exporters_business_name" "N/A" extracted_data
  let producer_name := dictGetD "producers_business_name" "N/A" extracted_data
  let d1 :=
    if producer_name ≠ "N/A" ∧ are_names_similar exporter_name producer_name = true then
      extracted_data
    else if producer_name ≠ "N/A" ∧ ¬ are_names_similar exporter_name producer_name = true then
      let e1 := dictInsert "consignees_name" producer_name extracted_data
      let e2 := dictInsert "consignees_address" (dictGetD "producers_address" "N/A" e1) e1
      dictInsert "consignees_country" (dictGetD "producers_country" "N/A" e2) e2
    else extracted_data
  dictPop "producers_country" (dictPop "producers_address"
    (dictPop "producers_business_name" d1))

/-! ### Spreadsheet rows (source lines 195-216) -/

/-- `excel_headers` (source lines 197-202). -/
def excel_headers : List String :=
  ["filename", "exporters_business_name", "exporters_address",
   "exporters_country", "consignees_name", "consignees_address",
   "consignees_country", "marks_numbers_packaging", "number_type_packages",
   "description_goods", "gross_weight_quantity", "value_fob"]

/-- The `row_data` dict built for one record (source lines 207-213). -/
def rowFor (extracted_data : Dict) : Dict :=
  excel_headers.foldl
    (fun row header =>
      dictInsert header
        (if header = "filename" then dictGetD "filename" "N/A" extracted_data
         else dictGetD header "N/A" extracted_data)
        row)
    []

/-- The `df_data` list of rows (source lines 205-213), one per record in
input order; spreadsheet serialization itself is external (pandas). -/
def create_excel_rows (extracted_data_list : List Dict) : List Dict :=
  extracted_data_list.map rowFor

/-- The shape of a non-missing cleaned value: its first character (if any) is
not `:`, `-` or whitespace. -/
def headNoJunk (v : String) : Bool :=
  match v.data with
  | [] => true
  | c :: _ => !(c = ':' || c = '-' || isPySpace c)

/-! ### Helper lemmas -/

theorem strIn_length_le {small big : List Char} (h : strIn small big = true) :
    small.length ≤ big.length := by
  induction big with
  | nil =>
    simp only [strIn, List.isEmpty_iff] at h
    simp [h]
  | cons b bs ih =>
    simp only [strIn, Bool.or_eq_true] at h
    rcases h with h | h
    · exact (List.isPrefixOf_iff_prefix.mp h).length_le
    · exact (ih h).trans (by simp)

theorem similarCore_true_of_strIn {c1 c2 : List Char} (h1 : c1 ≠ []) (h2 : c2 ≠ [])
    (h : strIn c1 c2 = true ∨ strIn c2 c1 = true) : similarCore c1 c2 = true := by
  unfold similarCore
  by_cases heq : c1 = c2
  · simp [heq]
  · rw [if_neg heq]
    have hmin : 0 < min c1.length c2.length :=
      lt_min (List.length_pos.mpr h1) (List.length_pos.mpr h2)
    rw [if_pos hmin]
    have hor : (strIn c1 c2 || strIn c2 c1) = true := by
      rcases h with h | h <;> simp [h]
    rw [if_pos hor]
    by_cases h12 : strIn c1 c2 = true
    · have hle : c1.length ≤ c2.length := strIn_length_le h12
      rw [if_pos (by simp [h12, min_eq_left hle]; omega)]
    · have h21 : strIn c2 c1 = true := by
        rcases h with h | h
        · exact absurd h h12
        · exact h
      have hle : c2.length ≤ c1.length := strIn_length_le h21
      rw [if_pos (by simp [h12, min_eq_right hle]; omega)]

theorem similarCore_comm (c1 c2 : List Char) :
    similarCore c1 c2 = similarCore c2 c1 := by
  by_cases heq : c1 = c2
  · rw [heq]
  · by_cases h1 : c1 = []
    · subst h1
      by_cases h2 : c2 = []
      · simp [h2]
      · unfold similarCore
        rw [if_neg heq, if_neg (Ne.symm heq)]
        simp [List.length_pos.mpr h2]
    · by_cases h2 : c2 = []
      · subst h2
        unfold similarCore
        rw [if_neg heq, if_neg (Ne.symm heq)]
        simp [List.length_pos.mpr h1]
      · by_cases hor : strIn c1 c2 = true ∨ strIn c2 c1 = true
        · rw [similarCore_true_of_strIn h1 h2 hor,
            similarCore_true_of_strIn h2 h1 hor.symm]
        · push_neg at hor
          obtain ⟨hn1, hn2⟩ := hor
          unfold similarCore
          rw [if_neg heq, if_neg (Ne.symm heq)]
          simp only [Bool.or_eq_true, not_or] at *
          rw [min_comm]
          by_cases hmin : 0 < min c2.length c1.length
          · rw [if_pos hmin, if_pos hmin]
            rw [if_neg (by simp [hn1, hn2]), if_neg (by simp [hn1, hn2])]
          · rw [if_neg hmin, if_neg hmin]

theorem dictGet?_insert_self (k v : String) (d : Dict) :
    dictGet? k (dictInsert k v d) = some v := by
  induction d with
  | nil => simp [dictInsert, dictGet?]
  | cons e d ih =>
    obtain ⟨k', v'⟩ := e
    by_cases h : k' = k
    · simp [dictInsert, dictGet?, h]
    · simp [dictInsert, dictGet?, h, ih]

theorem dictGet?_insert_ne (k k' v : String) (d : Dict) (h : k' ≠ k) :
    dictGet? k (dictInsert k' v d) = dictGet? k d := by
  induction d with
  | nil => simp [dictInsert, dictGet?, h]
  | cons e d ih =>
    obtain ⟨k'', v''⟩ := e
    by_cases h2 : k'' = k'
    · simp [dictInsert, dictGet?, h2, h]
    · by_cases h3 : k'' = k
      · simp [dictInsert, dictGet?, h2, h3, Ne.symm h]
      · simp [dictInsert, dictGet?, h2, h3, ih]

theorem dictGet?_pop_ne (k k' : String) (d : Dict) (h : k' ≠ k) :
    dictGet? k (dictPop k' d) = dictGet? k d := by
  induction d with
  | nil => simp [dictPop]
  | cons e d ih =>
    obtain ⟨k'', v''⟩ := e
    by_cases h2 : k'' = k'
    · have h3 : k'' ≠ k := by rw [h2]; exact h
      simp [dictPop, dictGet?, h2, h3, h]
    · by_cases h3 : k'' = k
      · simp [dictPop, dictGet?, h2, h3, Ne.symm h]
      · simp [dictPop, dictGet?, h2, h3, ih]

theorem dictGet?_eq_none_of_not_mem (k : String) (d : Dict)
    (h : k ∉ d.map Prod.fst) : dictGet? k d = none := by
  induction d with
  | nil => simp [dictGet?]
  | cons e d ih =>
    obtain ⟨k', v'⟩ := e
    simp only [List.map_cons, List.mem_cons, not_or] at h
    simp [dictGet?, Ne.symm h.1, ih h.2]

theorem dictPop_keys_sublist (k : String) (d : Dict) :
    List.Sublist ((dictPop k d).map Prod.fst) (d.map Prod.fst) := by
  induction d with
  | nil => simp [dictPop]
  | cons e d ih =>
    obtain ⟨k', v'⟩ := e
    by_cases h : k' = k
    · simp [dictPop, h]
    · simpa [dictPop, h] using List.Sublist.cons₂ k' ih

theorem dictGet?_pop_self (k : String) (d : Dict)
    (hnd : (d.map Prod.fst).Nodup) : dictGet? k (dictPop k d) = none := by
  induction d with
  | nil => simp [dictPop, dictGet?]
  | cons e d ih =>
    obtain ⟨k', v'⟩ := e
    simp only [List.map_cons, List.nodup_cons] at hnd
    by_cases h : k' = k
    · rw [dictPop, if_pos h]
      exact dictGet?_eq_none_of_not_mem _ _ (h ▸ hnd.1)
    · simp [dictPop, dictGet?, h, ih hnd.2]

theorem dictInsert_keys_mem (k v : String) (d : Dict) (k'' : String)
    (h : k'' ∈ (dictInsert k v d).map Prod.fst) :
    k'' = k ∨ k'' ∈ d.map Prod.fst := by
  induction d with
  | nil => simpa [dictInsert] using h
  | cons e d ih =>
    obtain ⟨k', v'⟩ := e
    by_cases h2 : k' = k
    · simpa [dictInsert, h2] using h
    · simp only [dictInsert, if_neg h2, List.map_cons, List.mem_cons] at h
      rcases h with h | h
      · simp [h]
      · rcases ih h with h | h
        · exact Or.inl h
        · simp [h]

theorem dictInsert_keys_nodup (k v : String) (d : Dict)
    (hnd : (d.map Prod.fst).Nodup) : ((dictInsert k v d).map Prod.fst).Nodup := by
  induction d with
  | nil => simp [dictInsert, hnd]
  | cons e d ih =>
    obtain ⟨k', v'⟩ := e
    simp only [List.map_cons, List.nodup_cons] at hnd
    by_cases h : k' = k
    · subst h
      have he : dictInsert k' v ((k', v') :: d) = (k', v) :: d := by
        simp [dictInsert]
      rw [he]
      simp only [List.map_cons, List.nodup_cons]
      exact hnd
    · have he : dictInsert k v ((k', v') :: d) = (k', v') :: dictInsert k v d := by
        simp [dictInsert, h]
      rw [he]
      simp only [List.map_cons, List.nodup_cons]
      refine ⟨?_, ih hnd.2⟩
      intro hmem
      rcases dictInsert_keys_mem k v d k' hmem with h1 | h1
      · exact h h1
      · exact hnd.1 h1

theorem dictPop_keys_nodup (k : String) (d : Dict)
    (hnd : (d.map Prod.fst).Nodup) : ((dictPop k d).map Prod.fst).Nodup :=
  hnd.sublist (dictPop_keys_sublist k d)

theorem dictGet?_mem_snd {k v : String} {d : Dict} (h : dictGet? k d = some v) :
    v ∈ d.map Prod.snd := by
  induction d with
  | nil => simp [dictGet?] at h
  | cons e d ih =>
    obtain ⟨k', v'⟩ := e
    by_cases h2 : k' = k
    · simp only [dictGet?, if_pos h2, Option.some_inj] at h
      simp [h]
    · simp only [dictGet?, if_neg h2] at h
      simp [ih h]

theorem dictGet?_insert_cases {k k' v' v : String} {d : Dict}
    (h : dictGet? k (dictInsert k' v' d) = some v) :
    (k = k' ∧ v = v') ∨ dictGet? k d = some v := by
  by_cases he : k' = k
  · subst he
    rw [dictGet?_insert_self] at h
    exact Or.inl ⟨rfl, (Option.some_inj.mp h).symm⟩
  · rw [dictGet?_insert_ne k k' v' d he] at h
    exact Or.inr h

theorem dictInsert_append_not_mem (k v : String) (d : Dict)
    (h : k ∉ d.map Prod.fst) : dictInsert k v d = d ++ [(k, v)] := by
  induction d with
  | nil => simp [dictInsert]
  | cons e d ih =>
    obtain ⟨k', v'⟩ := e
    simp only [List.map_cons, List.mem_cons, not_or] at h
    simp [dictInsert, Ne.symm h.1, ih h.2]

theorem dictGet?_map_self (g : String → String) (hs : List String) (k : String)
    (hk : k ∈ hs) : dictGet? k (hs.map fun h => (h, g h)) = some (g k) := by
  induction hs with
  | nil => cases hk
  | cons h hs ih =>
    by_cases he : h = k
    · subst he
      simp [dictGet?]
    · rcases List.mem_cons.mp hk with h1 | h1
      · exact absurd h1.symm he
      · simp [dictGet?, he, ih h1]

theorem stripLeadJunk_shape (s : List Char) : headNoJunk (String.mk (stripLeadJunk s)) = true := by
  induction s with
  | nil => rfl
  | cons c cs ih =>
    by_cases h : (c = ':' || c = '-' || isPySpace c) = true
    · simpa [stripLeadJunk, List.dropWhile_cons, h] using ih
    · simp [stripLeadJunk, List.dropWhile_cons, h, headNoJunk]

theorem clean_value_shape (raw : List Char) :
    String.mk (clean_extracted_value raw) = "N/A" ∨
      headNoJunk (String.mk (clean_extracted_value raw)) = true := by
  unfold clean_extracted_value
  by_cases h : raw = [] ∨ pyLower (pyStrip raw) ∈ missing_tokens
  · rw [if_pos h]
    left
    rfl
  · rw [if_neg h]
    right
    exact stripLeadJunk_shape _

theorem lineKV_key_mem {l : List Char} {k v : String}
    (h : lineKV l = some (k, v)) : k ∈ fieldKeys := by
  unfold lineKV at h
  cases hsp : splitFirstColon l with
  | none => rw [hsp] at h; cases h
  | some p =>
    obtain ⟨rawKey, rawVal⟩ := p
    rw [hsp] at h
    dsimp only at h
    cases hget : dictGet? (String.mk (pyStrip rawKey)) field_mapping with
    | none => rw [hget] at h; cases h
    | some fk =>
      rw [hget] at h
      simp only [Option.some_inj, Prod.mk.injEq] at h
      exact h.1 ▸ dictGet?_mem_snd hget

theorem lineKV_value_shape {l : List Char} {k v : String}
    (h : lineKV l = some (k, v)) : v = "N/A" ∨ headNoJunk v = true := by
  unfold lineKV at h
  cases hsp : splitFirstColon l with
  | none => rw [hsp] at h; cases h
  | some p =>
    obtain ⟨rawKey, rawVal⟩ := p
    rw [hsp] at h
    dsimp only at h
    cases hget : dictGet? (String.mk (pyStrip rawKey)) field_mapping with
    | none => rw [hget] at h; cases h
    | some fk =>
      rw [hget] at h
      simp only [Option.some_inj, Prod.mk.injEq] at h
      exact h.2 ▸ clean_value_shape rawVal

theorem parseLines_append (xs ys : List (List Char)) (d : Dict) :
    parseLines (xs ++ ys) d = parseLines ys (parseLines xs d) := by
  induction xs generalizing d with
  | nil => rfl
  | cons l ls ih =>
    simp only [List.cons_append, parseLines]
    exact ih _

theorem parseLines_no_key (ls : List (List Char)) (d : Dict) (k : String)
    (h : ∀ l ∈ ls, ∀ p, lineKV l = some p → p.1 ≠ k) :
    dictGet? k (parseLines ls d) = dictGet? k d := by
  induction ls generalizing d with
  | nil => rfl
  | cons l ls ih =>
    have hrest : ∀ l' ∈ ls, ∀ p, lineKV l' = some p → p.1 ≠ k :=
      fun l' hm => h l' (List.mem_cons_of_mem _ hm)
    cases hkv : lineKV l with
    | none =>
      simp only [parseLines, hkv]
      exact ih d hrest
    | some p =>
      obtain ⟨k', v⟩ := p
      have hne : k' ≠ k := h l (List.mem_cons_self _ _) (k', v) hkv
      simp only [parseLines, hkv]
      rw [ih _ hrest, dictGet?_insert_ne k k' v d hne]

theorem parseLines_value_shape (ls : List (List Char)) (d : Dict)
    (hd : ∀ k v, dictGet? k d = some v → v = "N/A" ∨ headNoJunk v = true) :
    ∀ k v, dictGet? k (parseLines ls d) = some v →
      v = "N/A" ∨ headNoJunk v = true := by
  induction ls generalizing d with
  | nil => exact hd
  | cons l ls ih =>
    cases hkv : lineKV l with
    | none =>
      simp only [parseLines, hkv]
      exact ih d hd
    | some p =>
      obtain ⟨k', v'⟩ := p
      simp only [parseLines, hkv]
      refine ih _ ?_
      intro k v hget
      rcases dictGet?_insert_cases hget with ⟨_, hv⟩ | hget'
      · exact hv ▸ lineKV_value_shape hkv
      · exact hd k v hget'

theorem parseLines_keys (ls : List (List Char)) (d : Dict) (k : String)
    (h : (dictGet? k (parseLines ls d)).isSome = true) :
    (dictGet? k d).isSome = true ∨ k ∈ fieldKeys := by
  induction ls generalizing d with
  | nil => exact Or.inl h
  | cons l ls ih =>
    cases hkv : lineKV l with
    | none =>
      simp only [parseLines, hkv] at h
      exact ih d h
    | some p =>
      obtain ⟨k', v'⟩ := p
      simp only [parseLines, hkv] at h
      rcases ih _ h with h1 | h1
      · cases hget : dictGet? k (dictInsert k' v' d) with
        | none => rw [hget] at h1; cases h1
        | some v =>
          rcases dictGet?_insert_cases hget with ⟨hk, _⟩ | hget'
          · exact Or.inr (hk ▸ lineKV_key_mem hkv)
          · exact Or.inl (by simp [hget'])
      · exact Or.inr h1

theorem foldl_dictInsert_fresh (g : String → String) (hs : List String) :
    ∀ acc : Dict, hs.Nodup → (∀ h ∈ hs, h ∉ acc.map Prod.fst) →
      hs.foldl (fun row h => dictInsert h (g h) row) acc
        = acc ++ hs.map fun h => (h, g h) := by
  induction hs with
  | nil => simp
  | cons h hs ih =>
    intro acc hnd hfresh
    simp only [List.foldl_cons, List.map_cons]
    rw [dictInsert_append_not_mem h (g h) acc (hfresh h (List.mem_cons_self _ _))]
    rw [ih _ (List.nodup_cons.mp hnd).2 ?_]
    · simp
    · intro h' hm
      simp only [List.map_append, List.mem_append, List.map_cons, not_or]
      refine ⟨hfresh h' (List.mem_cons_of_mem _ hm), ?_⟩
      have : h' ≠ h := fun he => (List.nodup_cons.mp hnd).1 (he ▸ hm)
      simp [this]

theorem dictGetD_insert_ne (k k' v dflt : String) (d : Dict) (h : k' ≠ k) :
    dictGetD k dflt (dictInsert k' v d) = dictGetD k dflt d := by
  unfold dictGetD
  rw [dictGet?_insert_ne k k' v d h]

theorem no_key_of_all {ls : List (List Char)} {k : String}
    (h : (ls.all fun l => (lineKV l).all fun p => p.1 != k) = true) :
    ∀ l ∈ ls, ∀ p, lineKV l = some p → p.1 ≠ k := by
  intro l hm p hkv
  have hb := List.all_eq_true.mp h l hm
  rw [hkv] at hb
  exact bne_iff_ne.mp hb

theorem rowFor_eq_map (d : Dict) :
    rowFor d = excel_headers.map fun h => (h, dictGetD h "N/A" d) := by
  have hfun : rowFor d
      = excel_headers.foldl (fun row h => dictInsert h (dictGetD h "N/A" d) row) [] := by
    unfold rowFor
    congr 1
    funext row header
    by_cases hf : header = "filename"
    · simp [hf]
    · rw [if_neg hf]
  rw [hfun, foldl_dictInsert_fresh _ _ [] (by decide) (by simp)]
  simp

/-! ### Concrete sanity checks of the embedding -/

/-! ### Concrete sanity checks of the embedding -/

example : clean_extracted_value "  Not Found ".data = "N/A".data := by decide

example : clean_extracted_value "".data = "N/A".data := by decide

example : clean_extracted_value ": na".data = "na".data := by decide

example : clean_extracted_value " ---".data = [] := by decide

example : clean_extracted_value "  ACME :  Ltd ".data = "ACME : Ltd".data := by
  decide

example : cleanName "ABC Pvt Ltd" = "abc".data := by decide

example : cleanName "abc private limited" = "abc".data := by decide

example : are_names_similar "ABC Pvt Ltd" "abc private limited" = true := by
  decide

example : are_names_similar "Alpha Traders" "Beta Exports" = false := by decide

example : are_names_similar "Alpha Traders Ltd" "Alpha" = true := by decide

example : are_names_similar "N/A" "na" = false := by decide

example : cleanName "N/A" = "na".data := by decide

example : are_names_similar "a  b" "a b" = false := by decide

example : cleanName "abc ltd def" = "abc  def".data := by decide

example : parse "Exporter's country: India\nExporter's country: IN"
    = [("exporters_country", "IN")] := by decide

example : parse "Notes: see attached" = [] := by decide

example : parse "Exporter's country: ---" = [("exporters_country", "")] := by
  decide

example : parse " Exporter's country : India\nConsignee's name: Acme Ltd"
    = [("exporters_country", "India"), ("consignees_name", "Acme Ltd")] := by
  decide

example : reconcile [("producers_business_name", "N/A")] = [] := by decide

example :
    reconcile [("exporters_business_name", "Alpha Traders"),
               ("consignees_name", "Gamma GmbH"),
               ("producers_business_name", "Beta Exports"),
               ("producers_address", "12 Beta St"),
               ("producers_country", "Vietnam")]
    = [("exporters_business_name", "Alpha Traders"),
       ("consignees_name", "Beta Exports"),
       ("consignees_address", "12 Beta St"),
       ("consignees_country", "Vietnam")] := by decide

example :
    rowFor [("value_fob", "100"), ("filename", "a.pdf")]
    = [("filename", "a.pdf"), ("exporters_business_name", "N/A"),
       ("exporters_address", "N/A"), ("exporters_country", "N/A"),
       ("consignees_name", "N/A"), ("consignees_address", "N/A"),
       ("consignees_country", "N/A"), ("marks_numbers_packaging", "N/A"),
       ("number_type_packages", "N/A"), ("description_goods", "N/A"),
       ("gross_weight_quantity", "N/A"), ("value_fob", "100")] := by decide

/-! ### Claim theorems -/

/-- Claim C1, counterexample: for the inputs `"N/A"` and `"na x"` both
normalized, suffix-stripped names are non-empty and the first is a substring
of the second, yet `are_names_similar` returns `false`: the input guard on
the literal `"N/A"` fires before the substring branch is ever reached. -/
theorem c1_guard_counterexample :
    cleanName "N/A" ≠ [] ∧ cleanName "na x" ≠ [] ∧
    strIn (cleanName "N/A") (cleanName "na x") = true ∧
    are_names_similar "N/A" "na x" = false := by decide

/-- Claim C1, amended: for inputs that pass the guard (neither empty nor the
missing marker `"N/A"`), if both normalized, suffix-stripped strings are
non-empty and one is a substring of the other, `are_names_similar` returns
`true`: the literal overlap ratio (substring length over shorter length)
always equals 1.0 in that branch and passes the 0.70 threshold. -/
theorem are_names_similar_substring_true (name1 name2 : String)
    (h1 : name1 ≠ "") (h2 : name2 ≠ "") (h3 : name1 ≠ "N/A") (h4 : name2 ≠ "N/A")
    (h5 : cleanName name1 ≠ []) (h6 : cleanName name2 ≠ [])
    (h7 : strIn (cleanName name1) (cleanName name2) = true ∨
      strIn (cleanName name2) (cleanName name1) = true) :
    are_names_similar name1 name2 = true := by
  unfold are_names_similar
  rw [if_neg (by simp [h1, h2, h3, h4])]
  exact similarCore_true_of_strIn h5 h6 h7

/-- Witness for the amended C1 at a concrete input. -/
theorem are_names_similar_substring_true_witness :
    are_names_similar "Alpha Traders Ltd" "Alpha" = true :=
  are_names_similar_substring_true "Alpha Traders Ltd" "Alpha" (by decide)
    (by decide) (by decide) (by decide) (by decide) (by decide)
    (Or.inr (by decide))

/-- Claim C2, counterexample: the pair `"a  b"` / `"a b"` is equal after the
SPEC's normalization (which collapses whitespace) and suffix-stripping, yet
`are_names_similar` returns `false`, because the code's normalization never
collapses whitespace; and the pair `"N/A"` / `"N/A"` is trivially equal after
any normalization yet returns `false` because of the input guard. -/
theorem c2_normalization_counterexample :
    (specNormalizeName "a  b" = specNormalizeName "a b" ∧
      are_names_similar "a  b" "a b" = false) ∧
    (specNormalizeName "N/A" = specNormalizeName "N/A" ∧
      are_names_similar "N/A" "N/A" = false) := by decide

/-- Claim C2, amended: for every pair of strings that are non-empty, differ
from the missing marker `"N/A"`, and are equal after the CODE's normalization
(lower-case, delete characters that are neither word characters nor
whitespace, trim, with no whitespace collapsing) followed by whole-word
removal of the fixed suffix tokens, `are_names_similar` returns `true`;
e.g. `"ABC Pvt Ltd"` vs `"abc private limited"` returns `true`. -/
theorem are_names_similar_of_cleanName_eq (name1 name2 : String)
    (h1 : name1 ≠ "") (h2 : name2 ≠ "") (h3 : name1 ≠ "N/A") (h4 : name2 ≠ "N/A")
    (heq : cleanName name1 = cleanName name2) :
    are_names_similar name1 name2 = true := by
  unfold are_names_similar
  rw [if_neg (by simp [h1, h2, h3, h4])]
  unfold similarCore
  rw [if_pos heq]

/-- Witness for the amended C2 at the claim's own example. -/
theorem are_names_similar_of_cleanName_eq_witness :
    are_names_similar "ABC Pvt Ltd" "abc private limited" = true :=
  are_names_similar_of_cleanName_eq "ABC Pvt Ltd" "abc private limited"
    (by decide) (by decide) (by decide) (by decide) (by decide)

/-- Claim C10: `are_names_similar` is symmetric in its two arguments. -/
theorem are_names_similar_comm (name1 name2 : String) :
    are_names_similar name1 name2 = are_names_similar name2 name1 := by
  unfold are_names_similar
  by_cases hg : name1 = "" ∨ name2 = "" ∨ name1 = "N/A" ∨ name2 = "N/A"
  · rw [if_pos hg, if_pos (by tauto)]
  · rw [if_neg hg, if_neg (by tauto)]
    exact similarCore_comm _ _

/-- Claim C4, counterexample: for the raw value `": na"`, collapsing
whitespace and stripping leading `:`/`-`/whitespace yields `"na"`, which is a
recognized missing token, so the claim says the result is `"N/A"`; but the
code checks the token list BEFORE stripping those leading characters, so it
returns `"na"` instead. -/
theorem c4_order_counterexample :
    pyLower (stripLeadJunk (collapseWs ": na".data)) ∈ missing_tokens ∧
    clean_extracted_value ": na".data ≠ "N/A".data := by decide

/-- Claim C4, amended: the Value Normalizer first tests the raw value: if it
is empty, or its whitespace-trimmed lower-cased form is one of
`{"n/a","na","not found","none",""}`, the result is the canonical missing
marker `"N/A"`; only values failing this test are whitespace-collapsed and
stripped of leading `:`/`-`/whitespace.  In particular `""`, `"N/A"`, `"na"`,
`"Not Found"`, `"none"` in any case all map to `"N/A"`. -/
theorem clean_extracted_value_missing (value : List Char)
    (h : value = [] ∨ pyLower (pyStrip value) ∈ missing_tokens) :
    clean_extracted_value value = "N/A".data := by
  unfold clean_extracted_value
  rw [if_pos h]

/-- Witness for the amended C4 at the claim's listed inputs. -/
theorem clean_extracted_value_missing_witness :
    clean_extracted_value "".data = "N/A".data ∧
    clean_extracted_value "N/A".data = "N/A".data ∧
    clean_extracted_value "na".data = "N/A".data ∧
    clean_extracted_value "Not Found".data = "N/A".data ∧
    clean_extracted_value "nOnE".data = "N/A".data :=
  ⟨clean_extracted_value_missing _ (Or.inl rfl),
   clean_extracted_value_missing _ (Or.inr (by decide)),
   clean_extracted_value_missing _ (Or.inr (by decide)),
   clean_extracted_value_missing _ (Or.inr (by decide)),
   clean_extracted_value_missing _ (Or.inr (by decide))⟩

/-- Claim C5, counterexample: a reply line whose value consists only of `:`,
`-` and whitespace characters parses to the EMPTY string, not `"N/A"`: the
token check sees `"---"` (not a missing token), and the later prefix
stripping deletes every character. -/
theorem c5_empty_value_counterexample :
    dictGet? "exporters_country" (parse "Exporter's country: ---") = some "" ∧
    ("" : String) ≠ "N/A" := by decide

/-- Claim C5, amended: every value stored by `parse` is either the canonical
missing marker `"N/A"` or a cleaned string whose first character (if any) is
not `:`, `-` or whitespace; the empty string CAN appear, when the raw value
consists solely of such characters. -/
theorem parse_value_shape (text : String) (k v : String)
    (h : dictGet? k (parse text) = some v) :
    v = "N/A" ∨ headNoJunk v = true := by
  refine parseLines_value_shape _ [] ?_ k v h
  intro k' v' h'
  simp [dictGet?] at h'

/-- Witness for the amended C5 at a concrete reply. -/
theorem parse_value_shape_witness :
    ("India" : String) = "N/A" ∨ headNoJunk "India" = true :=
  parse_value_shape "Exporter's country: India" "exporters_country" "India"
    (by decide)

/-- Claim C6: duplicate labels are resolved last-line-wins: if some line of
the reply yields the canonical key `k` with value `v`, and no later line
yields `k`, then the parsed record maps `k` to `v`. -/
theorem parse_last_line_wins (text : String) (pre post : List (List Char))
    (l : List Char) (k v : String)
    (hsplit : splitOnChar '\n' text.data = pre ++ l :: post)
    (hl : lineKV l = some (k, v))
    (hpost : (post.all fun l' => (lineKV l').all fun p => p.1 != k) = true) :
    dictGet? k (parse text) = some v := by
  unfold parse
  rw [hsplit, parseLines_append]
  have hstep : parseLines (l :: post) (parseLines pre [])
      = parseLines post (dictInsert k v (parseLines pre [])) := by
    simp only [parseLines, hl]
  rw [hstep, parseLines_no_key post _ k (no_key_of_all hpost),
    dictGet?_insert_self]

/-- Witness for C6 at the claim's own example. -/
theorem parse_last_line_wins_witness :
    dictGet? "exporters_country"
      (parse "Exporter's country: India\nExporter's country: IN")
      = some "IN" :=
  parse_last_line_wins "Exporter's country: India\nExporter's country: IN"
    ["Exporter's country: India".data] [] "Exporter's country: IN".data
    "exporters_country" "IN" (by decide) (by decide) (by decide)

/-- Claim C8: the parsed record contains only canonical keys from the field
mapping's value set, and a key no line of the reply yields is absent from the
record (so unmapped labels such as `"Notes"` contribute nothing). -/
theorem parse_only_mapped_keys (text : String) (k : String) :
    ((dictGet? k (parse text)).isSome = true → k ∈ fieldKeys) ∧
    (((splitOnChar '\n' text.data).all
        fun l => (lineKV l).all fun p => p.1 != k) = true →
      dictGet? k (parse text) = none) := by
  constructor
  · intro h
    rcases parseLines_keys _ [] k h with h1 | h1
    · simp [dictGet?] at h1
    · exact h1
  · intro h
    unfold parse
    rw [parseLines_no_key _ _ _ (no_key_of_all h)]
    rfl

/-- Witness for C8: a recognized key is in the mapping's value set, and the
unmapped label `"Notes"` leaves no key in the record. -/
theorem parse_only_mapped_keys_witness :
    ("exporters_country" ∈ fieldKeys) ∧
    dictGet? "Notes" (parse "Notes: see attached") = none :=
  ⟨(parse_only_mapped_keys "Notes: see attached\nExporter's country: India"
      "exporters_country").1 (by decide),
   (parse_only_mapped_keys "Notes: see attached" "Notes").2 (by decide)⟩

/-- Claim C3, counterexample: a record whose `producers_business_name` is
`"N/A"` is NOT returned completely unchanged: `reconcile` unconditionally
pops the producer-prefixed keys, so the entry disappears. -/
theorem c3_producer_keys_removed_counterexample :
    reconcile [("producers_business_name", "N/A")]
      ≠ [("producers_business_name", "N/A")] := by decide

/-- Claim C3, amended: when `producers_business_name` is the missing marker
(or absent), `reconcile` changes nothing EXCEPT that the three
producer-prefixed keys are removed: every other key keeps its exact value,
and the producer keys are absent afterwards. -/
theorem reconcile_missing_producer (d : Dict)
    (hnd : (d.map Prod.fst).Nodup)
    (h : dictGetD "producers_business_name" "N/A" d = "N/A") :
    (∀ k : String, k ≠ "producers_business_name" → k ≠ "producers_address" →
      k ≠ "producers_country" → dictGet? k (reconcile d) = dictGet? k d) ∧
    dictGet? "producers_business_name" (reconcile d) = none ∧
    dictGet? "producers_address" (reconcile d) = none ∧
    dictGet? "producers_country" (reconcile d) = none := by
  have hbody : reconcile d = dictPop "producers_country"
      (dictPop "producers_address" (dictPop "producers_business_name" d)) := by
    simp only [reconcile, h]
    simp
  refine ⟨?_, ?_, ?_, ?_⟩
  · intro k hk1 hk2 hk3
    rw [hbody, dictGet?_pop_ne k "producers_country" _ (Ne.symm hk3),
      dictGet?_pop_ne k "producers_address" _ (Ne.symm hk2),
      dictGet?_pop_ne k "producers_business_name" _ (Ne.symm hk1)]
  · rw [hbody,
      dictGet?_pop_ne "producers_business_name" "producers_country" _ (by decide),
      dictGet?_pop_ne "producers_business_name" "producers_address" _ (by decide)]
    exact dictGet?_pop_self _ _ hnd
  · rw [hbody,
      dictGet?_pop_ne "producers_address" "producers_country" _ (by decide)]
    exact dictGet?_pop_self _ _ (dictPop_keys_nodup _ _ hnd)
  · rw [hbody]
    exact dictGet?_pop_self _ _
      (dictPop_keys_nodup _ _ (dictPop_keys_nodup _ _ hnd))

/-- Witness for the amended C3 at a concrete record. -/
theorem reconcile_missing_producer_witness :
    dictGet? "exporters_business_name"
        (reconcile [("exporters_business_name", "Foo"),
          ("producers_business_name", "N/A")])
      = dictGet? "exporters_business_name"
          [("exporters_business_name", "Foo"),
           ("producers_business_name", "N/A")] ∧
    dictGet? "producers_business_name"
        (reconcile [("exporters_business_name", "Foo"),
          ("producers_business_name", "N/A")])
      = none :=
  ⟨(reconcile_missing_producer
      [("exporters_business_name", "Foo"), ("producers_business_name", "N/A")]
      (by decide) (by decide)).1
      "exporters_business_name" (by decide) (by decide) (by decide),
   (reconcile_missing_producer
      [("exporters_business_name", "Foo"), ("producers_business_name", "N/A")]
      (by decide) (by decide)).2.1⟩

/-- Claim C7: when the producer name is present (not `"N/A"`) and not similar
to the exporter name, `reconcile` overwrites the consignee triple with the
producer triple (with `"N/A"` for absent producer fields) and removes the
three producer-prefixed keys. -/
theorem reconcile_dissimilar_producer (d : Dict)
    (hnd : (d.map Prod.fst).Nodup)
    (hp : dictGetD "producers_business_name" "N/A" d ≠ "N/A")
    (hsim : are_names_similar (dictGetD "exporters_business_name" "N/A" d)
      (dictGetD "producers_business_name" "N/A" d) = false) :
    dictGet? "consignees_name" (reconcile d)
      = some (dictGetD "producers_business_name" "N/A" d) ∧
    dictGet? "consignees_address" (reconcile d)
      = some (dictGetD "producers_address" "N/A" d) ∧
    dictGet? "consignees_country" (reconcile d)
      = some (dictGetD "producers_country" "N/A" d) ∧
    dictGet? "producers_business_name" (reconcile d) = none ∧
    dictGet? "producers_address" (reconcile d) = none ∧
    dictGet? "producers_country" (reconcile d) = none := by
  simp only [reconcile]
  rw [if_neg (by simp [hsim]), if_pos ⟨hp, by simp [hsim]⟩]
  refine ⟨?_, ?_, ?_, ?_, ?_, ?_⟩
  · rw [dictGet?_pop_ne "consignees_name" "producers_country" _ (by decide),
      dictGet?_pop_ne "consignees_name" "producers_address" _ (by decide),
      dictGet?_pop_ne "consignees_name" "producers_business_name" _ (by decide),
      dictGet?_insert_ne "consignees_name" "consignees_country" _ _ (by decide),
      dictGet?_insert_ne "consignees_name" "consignees_address" _ _ (by decide),
      dictGet?_insert_self]
  · rw [dictGet?_pop_ne "consignees_address" "producers_country" _ (by decide),
      dictGet?_pop_ne "consignees_address" "producers_address" _ (by decide),
      dictGet?_pop_ne "consignees_address" "producers_business_name" _ (by decide),
      dictGet?_insert_ne "consignees_address" "consignees_country" _ _ (by decide),
      dictGet?_insert_self,
      dictGetD_insert_ne "producers_address" "consignees_name" _ _ _ (by decide)]
  · rw [dictGet?_pop_ne "consignees_country" "producers_country" _ (by decide),
      dictGet?_pop_ne "consignees_country" "producers_address" _ (by decide),
      dictGet?_pop_ne "consignees_country" "producers_business_name" _ (by decide),
      dictGet?_insert_self,
      dictGetD_insert_ne "producers_country" "consignees_address" _ _ _ (by decide),
      dictGetD_insert_ne "producers_country" "consignees_name" _ _ _ (by decide)]
  · rw [dictGet?_pop_ne "producers_business_name" "producers_country" _ (by decide),
      dictGet?_pop_ne "producers_business_name" "producers_address" _ (by decide)]
    exact dictGet?_pop_self _ _ (dictInsert_keys_nodup _ _ _
      (dictInsert_keys_nodup _ _ _ (dictInsert_keys_nodup _ _ _ hnd)))
  · rw [dictGet?_pop_ne "producers_address" "producers_country" _ (by decide)]
    exact dictGet?_pop_self _ _ (dictPop_keys_nodup _ _ (dictInsert_keys_nodup _ _ _
      (dictInsert_keys_nodup _ _ _ (dictInsert_keys_nodup _ _ _ hnd))))
  · exact dictGet?_pop_self _ _
      (dictPop_keys_nodup _ _ (dictPop_keys_nodup _ _ (dictInsert_keys_nodup _ _ _
        (dictInsert_keys_nodup _ _ _ (dictInsert_keys_nodup _ _ _ hnd)))))

/-- Witness for C7 at a concrete record (dissimilar exporter and producer). -/
theorem reconcile_dissimilar_producer_witness :
    dictGet? "consignees_name"
        (reconcile [("exporters_business_name", "Alpha Traders"),
          ("consignees_name", "Gamma GmbH"),
          ("producers_business_name", "Beta Exports"),
          ("producers_address", "12 Beta St"),
          ("producers_country", "Vietnam")])
      = some (dictGetD "producers_business_name" "N/A"
          [("exporters_business_name", "Alpha Traders"),
           ("consignees_name", "Gamma GmbH"),
           ("producers_business_name", "Beta Exports"),
           ("producers_address", "12 Beta St"),
           ("producers_country", "Vietnam")]) ∧
    dictGet? "producers_business_name"
        (reconcile [("exporters_business_name", "Alpha Traders"),
          ("consignees_name", "Gamma GmbH"),
          ("producers_business_name", "Beta Exports"),
          ("producers_address", "12 Beta St"),
          ("producers_country", "Vietnam")])
      = none :=
  ⟨(reconcile_dissimilar_producer
      [("exporters_business_name", "Alpha Traders"),
       ("consignees_name", "Gamma GmbH"),
       ("producers_business_name", "Beta Exports"),
       ("producers_address", "12 Beta St"),
       ("producers_country", "Vietnam")]
      (by decide) (by decide) (by decide)).1,
   (reconcile_dissimilar_producer
      [("exporters_business_name", "Alpha Traders"),
       ("consignees_name", "Gamma GmbH"),
       ("producers_business_name", "Beta Exports"),
       ("producers_address", "12 Beta St"),
       ("producers_country", "Vietnam")]
      (by decide) (by decide) (by decide)).2.2.2.1⟩

/-- Claim C9: the export builds exactly one data row per record in input
order; each row's columns are exactly `excel_headers` in schema order
regardless of the record's own key order, and each cell holds the record's
value for that column or `"N/A"` when the record lacks it. -/
theorem create_excel_rows_schema (ds : List Dict) :
    (create_excel_rows ds).length = ds.length ∧
    ∀ i (hi : i < (create_excel_rows ds).length) (hj : i < ds.length),
      ((create_excel_rows ds).get ⟨i, hi⟩).map Prod.fst = excel_headers ∧
      ∀ k ∈ excel_headers,
        dictGet? k ((create_excel_rows ds).get ⟨i, hi⟩)
          = some (dictGetD k "N/A" (ds.get ⟨i, hj⟩)) := by
  refine ⟨by simp [create_excel_rows], ?_⟩
  intro i hi hj
  have hrow : (create_excel_rows ds).get ⟨i, hi⟩ = rowFor (ds.get ⟨i, hj⟩) := by
    simp [create_excel_rows]
  rw [hrow, rowFor_eq_map]
  constructor
  · rw [List.map_map]
    exact List.map_id excel_headers
  · intro k hk
    exact dictGet?_map_self _ _ _ hk

/-- Witness for C9 at a concrete two-record batch. -/
theorem create_excel_rows_schema_witness :
    dictGet? "value_fob"
        ((create_excel_rows [[("value_fob", "100")], []]).get ⟨0, by decide⟩)
      = some (dictGetD "value_fob" "N/A"
          ([[("value_fob", "100")], []].get ⟨0, by decide⟩)) :=
  ((create_excel_rows_schema [[("value_fob", "100")], []]).2 0 (by decide)
    (by decide)).2 "value_fob" (by decide)

end CertExtract
